import Mathlib

/-!
# Verification of the broadcast/time/standings logic of `cardinals_trmnl.py`

This file gives a shallow embedding of the pure data-processing core of the
script `cardinals_trmnl.py`:

* `get_simplified_broadcasts` (the broadcast normalizer),
* `format_game_time` (the game-time formatter), and
* the standings-extraction loop inside `fetch_cardinals_data`.

Python JSON-like values are modelled by the inductive type `JVal`.  Python
operations that can raise (`x[k]` on a non-dict, `k in x` on a non-container,
`.get` on a non-dict) are modelled in the `Except String` monad, mirroring the
exact guard structure of the source; operations that cannot raise are plain
functions.  Python strings are Lean `String`s, with the handful of string
methods the script uses (`in`, `.replace`, `.strip`, `.upper`,
`.startswith`, `len`) implemented over the character list, matching CPython
semantics on the inputs the script can see.
-/

/-- A Python/JSON value as the script consumes it: `None`, booleans, integers,
strings, lists and dicts (dicts as association lists keyed by strings, first
binding wins, as produced by JSON parsing). -/
inductive JVal where
  | null
  | bool (b : Bool)
  | num (n : Int)
  | str (s : String)
  | arr (xs : List JVal)
  | obj (fields : List (String × JVal))

/-- Python truthiness (`if x:`): `None`, `False`, `0`, `""`, `[]`, `{}` are
falsy, everything else truthy. -/
def jTruthy : JVal → Bool
  | .null => false
  | .bool b => b
  | .num n => n ≠ 0
  | .str s => s ≠ ""
  | .arr xs => ¬ xs.isEmpty
  | .obj fs => ¬ fs.isEmpty

/-- Whether a value is a Python `str` (`isinstance(x, str)`). -/
def JVal.isStr : JVal → Bool
  | .str _ => true
  | _ => false

/-- Dict lookup on the raw field list: first binding for the key, else the
default (`d.get(k, default)` for a dict `d`). -/
def objGet (fs : List (String × JVal)) (k : String) (d : JVal) : JVal :=
  match fs.find? (fun p => p.1 = k) with
  | some p => p.2
  | none => d

/-- `x.get(k, d)` — only dicts have `.get`; on anything else Python raises
`AttributeError`. -/
def dictGet (x : JVal) (k : String) (d : JVal) : Except String JVal :=
  match x with
  | .obj fs => .ok (objGet fs k d)
  | _ => .error "AttributeError: object has no attribute get"

/-- Substring test on character lists (`needle in hay` for Python strings);
the empty needle is contained in every string. -/
def List.isSublistIn (needle : List Char) : List Char → Bool
  | [] => needle.isEmpty
  | c :: rest => needle.isPrefixOf (c :: rest) || needle.isSublistIn rest

/-- `needle in hay` for Python strings. -/
def substr (needle hay : String) : Bool :=
  needle.toList.isSublistIn hay.toList

/-- `k in x` for a string `k`: key membership for dicts, element equality for
lists (a string equals only an equal string), substring test for strings;
`TypeError` for non-container values. -/
def pyContains (x : JVal) (k : String) : Except String Bool :=
  match x with
  | .obj fs => .ok (fs.any (fun p => p.1 = k))
  | .arr xs => .ok (xs.any (fun v => match v with | .str s => s = k | _ => false))
  | .str s => .ok (k.toList.isSublistIn s.toList)
  | _ => .error "TypeError: argument is not iterable"

/-- `x[k]` for a string key `k`: dict indexing; Python raises `TypeError` on
lists/strings indexed by a string and on other non-dict values (`KeyError` on
a missing key, which the script always guards with `in`). -/
def pyGetItem (x : JVal) (k : String) : Except String JVal :=
  match x with
  | .obj fs =>
    match fs.find? (fun p => p.1 = k) with
    | some p => .ok p.2
    | none => .error "KeyError"
  | _ => .error "TypeError: indices must be integers"

/-- ASCII uppercasing of one character, as `str.upper` acts on the ASCII
range (the only range the script compares against). -/
def pyUpper (s : String) : String :=
  String.mk (s.toList.map Char.toUpper)

/-- Characters stripped by Python `str.strip()` with no argument. -/
def isPySpace (c : Char) : Bool :=
  c = ' ' || c = '\t' || c = '\n' || c = '\x0d' || c = '\x0b' || c = '\x0c'

/-- Python `str.strip()`. -/
def pyStrip (s : String) : String :=
  String.mk (((s.toList.dropWhile isPySpace).reverse.dropWhile isPySpace).reverse)

/-- Python `str.startswith(pat)`. -/
def pyStartsWith (s pat : String) : Bool :=
  pat.toList.isPrefixOf s.toList

/-- Left-to-right non-overlapping replacement on character lists, with fuel
(the fuel is the input length, which suffices because every step consumes at
least one character).  Matches `str.replace` for a non-empty pattern — the
script only ever replaces the fixed pattern "FanDuel Sports Network". -/
def replaceFuel (pat rep : List Char) : Nat → List Char → List Char
  | _, [] => []
  | 0, s => s
  | n + 1, c :: rest =>
    if pat ≠ [] && pat.isPrefixOf (c :: rest) then
      rep ++ replaceFuel pat rep n ((c :: rest).drop pat.length)
    else
      c :: replaceFuel pat rep n rest

/-- Python `s.replace(pat, rep)` for a non-empty `pat`. -/
def pyReplace (s pat rep : String) : String :=
  String.mk (replaceFuel pat.toList rep.toList s.toList.length s.toList)

/-- Python string length (`len`), counted in code points. -/
def pyLen (s : String) : Nat := s.toList.length

/-- Lexicographic `≤` on code-point lists — CPython string comparison, which
`sorted` uses. -/
def lexLe : List Char → List Char → Bool
  | [], _ => true
  | _ :: _, [] => false
  | a :: as, b :: bs =>
    if a.toNat < b.toNat then true
    else if b.toNat < a.toNat then false
    else lexLe as bs

/-- The ordering on Python strings used by `sorted`. -/
def strLe (a b : String) : Prop := lexLe a.toList b.toList = true

instance : DecidableRel strLe := fun a b => decEq (lexLe a.toList b.toList) true

/-- Python `sorted` on a list of strings (ascending, stable — duplicates never
arise because the inputs are de-duplicated sets). -/
def pySorted (l : List String) : List String :=
  List.insertionSort strLe l

/-- Python `set.add`: the underlying element collection of a Python set, as a
duplicate-free list (insertion position is irrelevant: every use is followed
by `sorted`). -/
def setAdd (s : List String) (x : String) : List String :=
  if x ∈ s then s else x :: s

/-- Which bucket a surviving broadcast candidate lands in. -/
inductive Bucket where
  | national
  | regional
deriving DecidableEq

/-- The per-candidate classification in the body of the `for broadcast in
all_broadcast_items` loop of `get_simplified_broadcasts`
(`cardinals_trmnl.py` lines 171-212): radio (`AM`/`FM`) and the
direct-to-consumer brand (`MLB.TV` in the name, or type `MLBTV`) are dropped;
names containing "FanDuel Sports Network" are shortened and routed by the
`isNational` flag; candidates flagged national or named in the fixed national
list keep their (non-empty) name in the national bucket; remaining TV-like or
named candidates contribute a short call sign (non-empty, not inside the
name, length strictly between 2 and 7) or else their name to the regional
bucket.  `none` means the candidate adds nothing to either bucket. -/
def classifyBroadcast (broadcast : JVal) : Option (Bucket × String) :=
  match broadcast with
  | .obj fs =>
    let b_type_raw := objGet fs "type" (.str "")
    let b_type := match b_type_raw with | .str s => pyUpper s | _ => ""
    if b_type = "AM" || b_type = "FM" then none
    else
      let name_raw := objGet fs "name" (objGet fs "description" (.str ""))
      let name := match name_raw with | .str s => s | _ => ""
      if substr "MLB.TV" name || b_type = "MLBTV" then none
      else
        let is_tv_broadcast := b_type = "TV" || (b_type = "" && name ≠ "")
        if substr "FanDuel Sports Network" name then
          let short_name := pyStrip (pyReplace name "FanDuel Sports Network" "FanDuel")
          let short_name :=
            if short_name = "" || short_name = "FanDuel" then "FanDuel SN"
            else if ¬ pyStartsWith short_name "FanDuel " then "FanDuel " ++ short_name
            else short_name
          if jTruthy (objGet fs "isNational" .null) then some (.national, short_name)
          else some (.regional, short_name)
        else if jTruthy (objGet fs "isNational" .null) ||
            name ∈ ["ESPN", "FOX", "FS1", "TBS", "Apple TV+", "Peacock", "MLB Network"] then
          if name ≠ "" then some (.national, name) else none
        else if is_tv_broadcast || name ≠ "" then
          let call_sign_raw := objGet fs "callSign" (.str "")
          let call_sign := match call_sign_raw with | .str s => s | _ => ""
          if call_sign ≠ "" && ¬ substr call_sign name && pyLen call_sign < 7 && pyLen call_sign > 2 then
            some (.regional, call_sign)
          else if name ≠ "" then some (.regional, name)
          else none
        else none
  | _ => none

/-- One iteration of the bucketing loop: feed a candidate through
`classifyBroadcast` and add the label, if any, to the matching set. -/
def bucketStep (acc : List String × List String) (broadcast : JVal) : List String × List String :=
  match classifyBroadcast broadcast with
  | none => acc
  | some (.national, s) => (setAdd acc.1 s, acc.2)
  | some (.regional, s) => (acc.1, setAdd acc.2 s)

/-- The bucketing loop of `get_simplified_broadcasts`: fold the candidate
pool through `classifyBroadcast`, collecting the `national_tv` and
`regional_tv` Python sets. -/
def bucketize (all_broadcast_items : List JVal) : List String × List String :=
  all_broadcast_items.foldl bucketStep ([], [])

/-- The display-list assembly of `get_simplified_broadcasts`
(`cardinals_trmnl.py` lines 214-221): all national members sorted, then
sorted regional members filling the remaining slots up to 3. -/
def assembleDisplay (national_tv regional_tv : List String) : List String :=
  let display_list := if national_tv ≠ [] then pySorted national_tv else []
  let display_list :=
    if regional_tv ≠ [] then
      let allowed_regional_count : Int := max 0 (3 - (display_list.length : Int))
      if 0 < allowed_regional_count then
        display_list ++ (pySorted regional_tv).take allowed_regional_count.toNat
      else display_list
    else display_list
  display_list

/-- The EPG part of the pool construction: groups whose upper-cased title is
`MLBTV` or `TV` and whose `items` field is a list contribute their items.  A
non-dict group makes `epg_group.get` raise. -/
def collectEpgItems : List JVal → Except String (List JVal)
  | [] => .ok []
  | epg_group :: rest => do
    let epg_title_raw ← dictGet epg_group "title" (.str "")
    let epg_title := match epg_title_raw with | .str s => pyUpper s | _ => ""
    let contrib ←
      if epg_title = "MLBTV" || epg_title = "TV" then do
        let items ← dictGet epg_group "items" .null
        match items with
        | .arr xs => pure xs
        | _ => pure []
      else pure ([] : List JVal)
    let more ← collectEpgItems rest
    return contrib ++ more

/-- The candidate-pool construction of `get_simplified_broadcasts`
(`cardinals_trmnl.py` lines 152-163): the flat `broadcasts` list (when
present and a list) concatenated with the EPG items reached through
`content` / `media` / `epg`.  Each `in` test and indexing step carries the
exact Python raising behaviour. -/
def collectPool (game_data_item : JVal) : Except String (List JVal) := do
  let fromBroadcasts ← do
    let hasB ← pyContains game_data_item "broadcasts"
    if hasB then do
      let b ← pyGetItem game_data_item "broadcasts"
      match b with
      | .arr xs => pure xs
      | _ => pure []
    else pure ([] : List JVal)
  let fromEpg ← do
    let hasC ← pyContains game_data_item "content"
    if hasC then do
      let content ← pyGetItem game_data_item "content"
      let hasM ← pyContains content "media"
      if hasM then do
        let media ← pyGetItem content "media"
        let hasE ← pyContains media "epg"
        if hasE then do
          let epg ← pyGetItem media "epg"
          match epg with
          | .arr groups => collectEpgItems groups
          | _ => pure []
        else pure ([] : List JVal)
      else pure ([] : List JVal)
    else pure ([] : List JVal)
  return fromBroadcasts ++ fromEpg

/-- `get_simplified_broadcasts(game_data_item)` (`cardinals_trmnl.py` lines
148-226).  The `Except` layer carries the exceptions the Python body can
raise while building the candidate pool; a `.ok` result is the returned list
of broadcast strings. -/
def get_simplified_broadcasts (game_data_item : JVal) : Except String (List String) :=
  match collectPool game_data_item with
  | .error e => .error e
  | .ok all_broadcast_items =>
    if all_broadcast_items.isEmpty then .ok ["TBD"]
    else
      let buckets := bucketize all_broadcast_items
      let display_list := assembleDisplay buckets.1 buckets.2
      if display_list.isEmpty then .ok ["TBD"]
      else .ok display_list


/-! ## Game-time formatting (`format_game_time`, lines 113-146)

`datetime.strptime` is modelled pattern-by-pattern: CPython compiles each
directive of the three format strings the script tries into a digit
alternation (`%Y` is exactly four digits, `%m` is `1[0-2]|0[1-9]|[1-9]`, and
so on), requires the whole input to be consumed, and then validates the
calendar date when constructing the `datetime` value.  The timezone database
is modelled for the zones the script exercises (`DISPLAY_TIMEZONE =
"America/Chicago"`, with the post-2007 United States daylight-saving rule
that governs every date the script can fetch); every other name behaves as
unknown and raises, which the enclosing handler turns into the sentinel. -/

/-- A parsed naive `datetime` value (microseconds parsed by `%f` are stored
nowhere because no output format of the script prints them). -/
structure PyDateTime where
  year : Nat
  month : Nat
  day : Nat
  hour : Nat
  minute : Nat
  second : Nat
deriving DecidableEq

/-- ASCII digit test (the digit class of the compiled strptime patterns). -/
def isDig (c : Char) : Bool := 48 ≤ c.toNat && c.toNat ≤ 57

/-- Numeric value of an ASCII digit. -/
def digVal (c : Char) : Nat := c.toNat - 48

/-- `%Y`: exactly four digits. -/
def parseY : List Char → Option (Nat × List Char)
  | a :: b :: c :: d :: rest =>
    if isDig a && isDig b && isDig c && isDig d then
      some (digVal a * 1000 + digVal b * 100 + digVal c * 10 + digVal d, rest)
    else none
  | _ => none

/-- `%m`: `1[0-2]|0[1-9]|[1-9]`. -/
def parseMonthF : List Char → Option (Nat × List Char)
  | a :: b :: rest =>
    if (a = '1' && isDig b && digVal b ≤ 2) || (a = '0' && isDig b && 1 ≤ digVal b) then
      some (digVal a * 10 + digVal b, rest)
    else if isDig a && 1 ≤ digVal a then some (digVal a, b :: rest)
    else none
  | [a] => if isDig a && 1 ≤ digVal a then some (digVal a, []) else none
  | [] => none

/-- `%d`: `3[01]|[12]\d|0[1-9]|[1-9]`. -/
def parseDayF : List Char → Option (Nat × List Char)
  | a :: b :: rest =>
    if (a = '3' && (b = '0' || b = '1')) || ((a = '1' || a = '2') && isDig b) ||
        (a = '0' && isDig b && 1 ≤ digVal b) then
      some (digVal a * 10 + digVal b, rest)
    else if isDig a && 1 ≤ digVal a then some (digVal a, b :: rest)
    else none
  | [a] => if isDig a && 1 ≤ digVal a then some (digVal a, []) else none
  | [] => none

/-- `%H`: `2[0-3]|[0-1]\d|\d`. -/
def parseHourF : List Char → Option (Nat × List Char)
  | a :: b :: rest =>
    if (a = '2' && isDig b && digVal b ≤ 3) || ((a = '0' || a = '1') && isDig b) then
      some (digVal a * 10 + digVal b, rest)
    else if isDig a then some (digVal a, b :: rest)
    else none
  | [a] => if isDig a then some (digVal a, []) else none
  | [] => none

/-- `%M`: `[0-5]\d|\d`. -/
def parseMinF : List Char → Option (Nat × List Char)
  | a :: b :: rest =>
    if isDig a && digVal a ≤ 5 && isDig b then
      some (digVal a * 10 + digVal b, rest)
    else if isDig a then some (digVal a, b :: rest)
    else none
  | [a] => if isDig a then some (digVal a, []) else none
  | [] => none

/-- `%S`: `6[0-1]|[0-5]\d|\d` (leap seconds are accepted by the pattern and
rejected afterwards by the `datetime` constructor). -/
def parseSecF : List Char → Option (Nat × List Char)
  | a :: b :: rest =>
    if (a = '6' && (b = '0' || b = '1')) || (isDig a && digVal a ≤ 5 && isDig b) then
      some (digVal a * 10 + digVal b, rest)
    else if isDig a then some (digVal a, b :: rest)
    else none
  | [a] => if isDig a then some (digVal a, []) else none
  | [] => none

/-- `%f`: one to six digits, greedy; the value is discarded downstream. -/
def parseFrac (s : List Char) : Option (Nat × List Char) :=
  let ds := (s.takeWhile isDig).take 6
  if ds.isEmpty then none
  else some (ds.foldl (fun acc c => acc * 10 + digVal c) 0, s.drop ds.length)

/-- A literal character of the format string (strptime compiles the format
with IGNORECASE, so letters match either case). -/
def expectLit (c : Char) : List Char → Option (List Char)
  | x :: rest => if x.toLower = c.toLower then some rest else none
  | [] => none

/-- Gregorian leap-year rule. -/
def isLeapYear (y : Nat) : Bool := (y % 4 = 0 && y % 100 ≠ 0) || y % 400 = 0

/-- Length of a month. -/
def daysInMonth (y m : Nat) : Nat :=
  if m = 2 then (if isLeapYear y then 29 else 28)
  else if m = 4 || m = 6 || m = 9 || m = 11 then 30
  else 31

/-- The validation the `datetime` constructor performs after the pattern
match (year at least 1, day within the month, hour/minute/second in range). -/
def validDateTime (y mo d h mi se : Nat) : Bool :=
  1 ≤ y && 1 ≤ mo && mo ≤ 12 && 1 ≤ d && d ≤ daysInMonth y mo &&
    h ≤ 23 && mi ≤ 59 && se ≤ 59

/-- `datetime.strptime(s, "%Y-%m-%dT%H:%M:%S")`. -/
def parseDateTimeSec (s : List Char) : Option PyDateTime := do
  let (y, s) ← parseY s
  let s ← expectLit '-' s
  let (mo, s) ← parseMonthF s
  let s ← expectLit '-' s
  let (d, s) ← parseDayF s
  let s ← expectLit 'T' s
  let (h, s) ← parseHourF s
  let s ← expectLit ':' s
  let (mi, s) ← parseMinF s
  let s ← expectLit ':' s
  let (se, s) ← parseSecF s
  if s.isEmpty && validDateTime y mo d h mi se then some ⟨y, mo, d, h, mi, se⟩ else none

/-- `datetime.strptime(s, "%Y-%m-%dT%H:%M:%S.%f")`. -/
def parseDateTimeFrac (s : List Char) : Option PyDateTime := do
  let (y, s) ← parseY s
  let s ← expectLit '-' s
  let (mo, s) ← parseMonthF s
  let s ← expectLit '-' s
  let (d, s) ← parseDayF s
  let s ← expectLit 'T' s
  let (h, s) ← parseHourF s
  let s ← expectLit ':' s
  let (mi, s) ← parseMinF s
  let s ← expectLit ':' s
  let (se, s) ← parseSecF s
  let s ← expectLit '.' s
  let (_f, s) ← parseFrac s
  if s.isEmpty && validDateTime y mo d h mi se then some ⟨y, mo, d, h, mi, se⟩ else none

/-- `datetime.strptime(s, "%Y-%m-%d")` — hour, minute and second default to
zero. -/
def parseBareDate (s : List Char) : Option PyDateTime := do
  let (y, s) ← parseY s
  let s ← expectLit '-' s
  let (mo, s) ← parseMonthF s
  let s ← expectLit '-' s
  let (d, s) ← parseDayF s
  if s.isEmpty && validDateTime y mo d 0 0 0 then some ⟨y, mo, d, 0, 0, 0⟩ else none

/-- Days from 1970-01-01 of a civil date (Gregorian, proleptic); the standard
era-based algorithm with truncating integer division on non-negative
operands. -/
def daysFromCivil (y0 m d : Int) : Int :=
  let y := if m ≤ 2 then y0 - 1 else y0
  let era : Int := (if 0 ≤ y then y else y - 399) / 400
  let yoe := y - era * 400
  let doy := (153 * (if 2 < m then m - 3 else m + 9) + 2) / 5 + d - 1
  let doe := yoe * 365 + yoe / 4 - yoe / 100 + doy
  era * 146097 + doe - 719468

/-- Civil date of a day count from 1970-01-01 (inverse of `daysFromCivil`). -/
def civilFromDays (z0 : Int) : Int × Nat × Nat :=
  let z := z0 + 719468
  let era : Int := (if 0 ≤ z then z else z - 146096) / 146097
  let doe := z - era * 146097
  let yoe := (doe - doe / 1460 + doe / 36524 - doe / 146096) / 365
  let y := yoe + era * 400
  let doy := doe - (365 * yoe + yoe / 4 - yoe / 100)
  let mp := (5 * doy + 2) / 153
  let d := doy - (153 * mp + 2) / 5 + 1
  let m := if mp < 10 then mp + 3 else mp - 9
  (if m ≤ 2 then y + 1 else y, m.toNat, d.toNat)

/-- Weekday of a day count, 0 = Monday (1970-01-01 was a Thursday). -/
def weekdayOfDays (days : Int) : Nat := ((days + 3).emod 7).toNat

/-- `%a` weekday abbreviations, indexed from Monday. -/
def weekdayName (w : Nat) : String :=
  (["Mon", "Tue", "Wed", "Thu", "Fri", "Sat", "Sun"]).getD w "Mon"

/-- `%b` month abbreviations. -/
def monthName (m : Nat) : String :=
  (["Jan", "Feb", "Mar", "Apr", "May", "Jun", "Jul", "Aug", "Sep", "Oct",
    "Nov", "Dec"]).getD (m - 1) "Jan"

/-- Zero-padded two-digit rendering (`%d`, `%M`). -/
def two (n : Nat) : String := if n < 10 then "0" ++ toString n else toString n

/-- The smallest Sunday on or after day `d` of month `m` in year `y`. -/
def firstSundayOnOrAfter (y : Int) (m d : Nat) : Nat :=
  let w := weekdayOfDays (daysFromCivil y (m : Int) (d : Int))
  d + ((6 - w) % 7)

/-- Whether United States daylight-saving time is active in Chicago at a UTC
instant (minutes from the epoch): from 2:00 standard time on the second
Sunday of March (08:00 UTC) until 2:00 daylight time on the first Sunday of
November (07:00 UTC), the rule pytz applies to every year of the script's
operation. -/
def chicagoDstActive (utcMinutes : Int) (y : Int) : Bool :=
  let startDay := firstSundayOnOrAfter y 3 8
  let endDay := firstSundayOnOrAfter y 11 1
  let startMin := daysFromCivil y 3 (startDay : Int) * 1440 + 8 * 60
  let endMin := daysFromCivil y 11 (endDay : Int) * 1440 + 7 * 60
  startMin ≤ utcMinutes && utcMinutes < endMin

/-- The timezones the script can name.  Modelled from the tz database for the
zones the script exercises; `pytz.timezone` on any other string is the
raising branch the handler converts to the sentinel. -/
inductive TZRule where
  | utc
  | chicago
deriving DecidableEq

/-- `pytz.timezone` on the modelled zones. -/
def tzLookup : String → Option TZRule
  | "UTC" => some .utc
  | "America/Chicago" => some .chicago
  | _ => none

/-- Offset in minutes and `%Z` abbreviation of a zone at a UTC instant. -/
def tzOffsetAbbr (tz : TZRule) (utcMinutes : Int) (y : Int) : Int × String :=
  match tz with
  | .utc => (0, "UTC")
  | .chicago => if chicagoDstActive utcMinutes y then (-300, "CDT") else (-360, "CST")

/-- `dt.strftime("%a %b %d (Time TBD)")` for a bare date. -/
def renderBare (dt : PyDateTime) : String :=
  let wd := weekdayOfDays (daysFromCivil (dt.year : Int) (dt.month : Int) (dt.day : Int))
  weekdayName wd ++ " " ++ monthName dt.month ++ " " ++ two dt.day ++ " (Time TBD)"

/-- UTC localization, conversion to the target zone, and
`dt_target.strftime("%a %b %d, %-I:%M %p %Z")`: 12-hour clock with no leading
zero on the hour, zero-padded day and minutes, zone abbreviation. -/
def renderConverted (tz : TZRule) (dt : PyDateTime) : String :=
  let utcMinutes :=
    daysFromCivil (dt.year : Int) (dt.month : Int) (dt.day : Int) * 1440 +
      (dt.hour : Int) * 60 + (dt.minute : Int)
  let offAbbr := tzOffsetAbbr tz utcMinutes (dt.year : Int)
  let localMinutes := utcMinutes + offAbbr.1
  let localDays := localMinutes.ediv 1440
  let civil := civilFromDays localDays
  let minOfDay := (localMinutes.emod 1440).toNat
  let h := minOfDay / 60
  let mi := minOfDay % 60
  let h12 := if h % 12 = 0 then 12 else h % 12
  let ampm := if h < 12 then "AM" else "PM"
  let wd := weekdayOfDays localDays
  weekdayName wd ++ " " ++ monthName civil.2.1 ++ " " ++ two civil.2.2 ++ ", " ++
    toString h12 ++ ":" ++ two mi ++ " " ++ ampm ++ " " ++ offAbbr.2

/-- `s[:-1]` applied when `s.endswith("Z")`. -/
def stripZ (s : String) : String :=
  if s.toList.getLast? = some 'Z' then String.mk s.toList.dropLast else s

/-- `s.split("T")[0]`: the prefix before the first `T` (the whole string when
no `T` occurs). -/
def datePortion (s : String) : String :=
  String.mk (s.toList.takeWhile (fun c => c ≠ 'T'))

/-- `format_game_time(game_date_utc_str, target_tz_str)` (`cardinals_trmnl.py`
lines 113-146): non-strings are rejected up front; the timezone is resolved
before any parsing; a trailing `Z` is stripped; the three formats are tried
in order, a bare-date hit rendering without conversion; when all fail, the
portion before `T` is tried as a bare date; every failure ends in the
sentinel `"Time TBD"`. -/
def format_game_time (game_date_utc_str : JVal) (target_tz_str : String) : String :=
  match game_date_utc_str with
  | .str s0 =>
    match tzLookup target_tz_str with
    | none => "Time TBD"
    | some target_tz =>
      let s := stripZ s0
      match parseDateTimeSec s.toList with
      | some dt => renderConverted target_tz dt
      | none =>
        match parseDateTimeFrac s.toList with
        | some dt => renderConverted target_tz dt
        | none =>
          match parseBareDate s.toList with
          | some dt => renderBare dt
          | none =>
            match parseBareDate (datePortion s).toList with
            | some dt => renderBare dt
            | none => "Time TBD"
  | _ => "Time TBD"

/-! ## Standings extraction (`fetch_cardinals_data`, lines 303-339)

The pure part of the standings stage: given the decoded standings response,
scan the grouping records for the target team and build the
`record`/`rank`/`gb` strings; the enclosing `try`/`except` leaves all three
at the `"N/A"` sentinel when anything raises (every raising point sits
before any field is written). -/

mutual
/-- Python `repr` of the values the script can meet, for container rendering
inside `str` (string escaping inside `repr` is not modelled — no claim
renders a container). -/
def pyReprD : JVal → String
  | .null => "None"
  | .bool b => if b then "True" else "False"
  | .num n => toString n
  | .str s => "\x27" ++ s ++ "\x27"
  | .arr xs => "[" ++ pyReprSeqD xs ++ "]"
  | .obj fs => "\x7b" ++ pyReprFieldsD fs ++ "\x7d"

/-- `repr` of the elements of a list, comma separated. -/
def pyReprSeqD : List JVal → String
  | [] => ""
  | [x] => pyReprD x
  | x :: y :: rest => pyReprD x ++ ", " ++ pyReprSeqD (y :: rest)

/-- `repr` of the bindings of a dict, comma separated. -/
def pyReprFieldsD : List (String × JVal) → String
  | [] => ""
  | [(k, v)] => "\x27" ++ k ++ "\x27: " ++ pyReprD v
  | (k, v) :: p :: rest => "\x27" ++ k ++ "\x27: " ++ pyReprD v ++ ", " ++ pyReprFieldsD (p :: rest)
end

/-- Python `str(x)` as an f-string applies it: identity on strings, `None` /
`True` / `False` / decimal for the other scalars, `repr`-based rendering of
containers. -/
def pyStr : JVal → String
  | .null => "None"
  | .bool b => if b then "True" else "False"
  | .num n => toString n
  | .str s => s
  | .arr xs => "[" ++ pyReprSeqD xs ++ "]"
  | .obj fs => "\x7b" ++ pyReprFieldsD fs ++ "\x7d"

/-- Python `x == team_id` for an `int` `team_id`: numeric equality, with
`bool` comparing as 0/1 as in Python. -/
def pyEqInt (v : JVal) (n : Int) : Bool :=
  match v with
  | .num m => m = n
  | .bool b => (if b then (1 : Int) else 0) = n
  | _ => false

/-- The three output fields of the standings stage. -/
structure StandingsInfo where
  record : String
  rank : String
  gb : String
deriving DecidableEq

/-- The sentinel-filled initial value of `standings_info`. -/
def standingsDefault : StandingsInfo := ⟨"N/A", "N/A", "N/A"⟩

/-- The `division_name` computation of lines 311-316: the division
`nameShort` (sentinel `N/A` when absent or the division is not a dict), with
the league `nameShort` (fallback literal `League`) replacing an unresolved
sentinel when a `league` key exists. -/
def divisionNameOf (fs : List (String × JVal)) : JVal :=
  let division_name_obj := objGet fs "division" (.obj [])
  let division_name :=
    match division_name_obj with
    | .obj dfs => objGet dfs "nameShort" (.str "N/A")
    | _ => .str "N/A"
  if (match division_name with | .str s => s = "N/A" | _ => false) &&
      fs.any (fun p => p.1 = "league") then
    match objGet fs "league" (.obj []) with
    | .obj lfs => objGet lfs "nameShort" (.str "League")
    | _ => .str "League"
  else division_name

/-- The inner loop over `teamRecords` (lines 318-337): skip entries that are
not dicts, lack a `team` key, or whose `team` is not a dict; on the first
entry whose team id equals the target, build the three display strings
(games-back literal `-` normalized to `0.0` before the suffix). -/
def findTeamStanding (team_id : Int) (division_name : JVal) : List JVal → Option StandingsInfo
  | [] => none
  | team_standing :: rest =>
    match team_standing with
    | .obj fs =>
      if ¬ fs.any (fun p => p.1 = "team") then findTeamStanding team_id division_name rest
      else
        match objGet fs "team" (.obj []) with
        | .obj tfs =>
          if pyEqInt (objGet tfs "id" .null) team_id then
            let league_record := objGet fs "leagueRecord" (.obj [])
            let wins :=
              match league_record with | .obj lfs => objGet lfs "wins" (.num 0) | _ => .num 0
            let losses :=
              match league_record with | .obj lfs => objGet lfs "losses" (.num 0) | _ => .num 0
            let rank_val := objGet fs "divisionRank" (objGet fs "leagueRank" (.str "N/A"))
            let gb_val := objGet fs "gamesBack" (.str "N/A")
            let gb_val :=
              match gb_val with
              | .str s => if s = "-" then JVal.str "0.0" else .str s
              | v => v
            some ⟨pyStr wins ++ "-" ++ pyStr losses,
                  pyStr rank_val ++ " in " ++ pyStr division_name,
                  pyStr gb_val ++ " GB"⟩
          else findTeamStanding team_id division_name rest
        | _ => findTeamStanding team_id division_name rest
    | _ => findTeamStanding team_id division_name rest

/-- The outer loop over grouping records (lines 307-337): skip non-dicts and
records without a `teamRecords` key; resolve the division name; search the
record's team list, stopping at the first hit.  Iterating a non-iterable
`teamRecords` value raises; iterating a string or dict yields strings, which
the inner loop skips. -/
def standingsRecordsLoop (team_id : Int) : List JVal → Except String StandingsInfo
  | [] => .ok standingsDefault
  | record :: rest =>
    match record with
    | .obj fs =>
      if ¬ fs.any (fun p => p.1 = "teamRecords") then standingsRecordsLoop team_id rest
      else
        let division_name := divisionNameOf fs
        match objGet fs "teamRecords" (.arr []) with
        | .arr ts =>
          match findTeamStanding team_id division_name ts with
          | some info => .ok info
          | none => standingsRecordsLoop team_id rest
        | .str _ => standingsRecordsLoop team_id rest
        | .obj _ => standingsRecordsLoop team_id rest
        | _ => .error "TypeError: not iterable"
    | _ => standingsRecordsLoop team_id rest

/-- The guarded body of the standings stage: the emptiness/shape test of line
303, then the scan.  `Except` carries the raising branches. -/
def extractStandingsCore (standings_response : JVal) (team_id : Int) : Except String StandingsInfo := do
  if ¬ jTruthy standings_response then return standingsDefault
  let hasRecords ← pyContains standings_response "records"
  if ¬ hasRecords then return standingsDefault
  let records ← dictGet standings_response "records" (.arr [])
  match records with
  | .arr rs => standingsRecordsLoop team_id rs
  | .str _ => return standingsDefault
  | .obj _ => return standingsDefault
  | _ => .error "TypeError: not iterable"

/-- The standings stage as `fetch_cardinals_data` delivers it: any raise is
caught by the stage boundary and every field stays at the sentinel (no field
is written before the last raising point). -/
def extract_standings (standings_response : JVal) (team_id : Int) : StandingsInfo :=
  match extractStandingsCore standings_response team_id with
  | .ok info => info
  | .error _ => standingsDefault

/-! ## Concrete inputs used by the claim theorems -/

/-- Whether a value is a Python `dict` (`isinstance(x, dict)`). -/
def JVal.isDict : JVal → Bool
  | .obj _ => true
  | _ => false

/-- The raw game record of the C3 scenario: a national TV candidate, a
regional TV candidate with a short call sign, and an AM radio candidate. -/
def c3Game : JVal :=
  .obj [("broadcasts", .arr [
    .obj [("type", .str "TV"), ("name", .str "FOX"), ("isNational", .bool true)],
    .obj [("type", .str "TV"), ("name", .str "Bally Sports Midwest"), ("callSign", .str "BSMW")],
    .obj [("type", .str "AM"), ("name", .str "KMOX")]])]

/-- A pool of four distinct flagged-national candidates. -/
def fourNationalPool : List JVal :=
  [.obj [("name", .str "ESPN"), ("isNational", .bool true)],
   .obj [("name", .str "FOX"), ("isNational", .bool true)],
   .obj [("name", .str "FS1"), ("isNational", .bool true)],
   .obj [("name", .str "TBS"), ("isNational", .bool true)]]

/-- A game record carrying `fourNationalPool` as its flat broadcast list. -/
def fourNationalGame : JVal := .obj [("broadcasts", .arr fourNationalPool)]

/-- Another pool of four distinct flagged-national candidates. -/
def c2Pool : List JVal :=
  [.obj [("name", .str "Alpha TV"), ("isNational", .bool true)],
   .obj [("name", .str "Beta TV"), ("isNational", .bool true)],
   .obj [("name", .str "Gamma TV"), ("isNational", .bool true)],
   .obj [("name", .str "Delta TV"), ("isNational", .bool true)]]

/-- A game record carrying `c2Pool` as its flat broadcast list. -/
def c2Game : JVal := .obj [("broadcasts", .arr c2Pool)]

/-- A pool of exactly three flagged-national candidates. -/
def threeNationalPool : List JVal :=
  [.obj [("name", .str "Chan One"), ("isNational", .bool true)],
   .obj [("name", .str "Chan Two"), ("isNational", .bool true)],
   .obj [("name", .str "Chan Six"), ("isNational", .bool true)]]

/-- A game record carrying `threeNationalPool` as its flat broadcast list. -/
def threeNationalGame : JVal := .obj [("broadcasts", .arr threeNationalPool)]

/-- A national TV candidate. -/
def bcFox : JVal := .obj [("type", .str "TV"), ("name", .str "FOX"), ("isNational", .bool true)]

/-- A regional TV candidate with a short call sign. -/
def bcBally : JVal :=
  .obj [("type", .str "TV"), ("name", .str "Bally Sports Midwest"), ("callSign", .str "BSMW")]

/-- A game record listing `bcFox` before `bcBally`. -/
def permGameA : JVal := .obj [("broadcasts", .arr [bcFox, bcBally])]

/-- A game record listing `bcBally` before `bcFox`. -/
def permGameB : JVal := .obj [("broadcasts", .arr [bcBally, bcFox])]

/-- A pool whose candidates are not dicts. -/
def nonDictPool : List JVal := [.num 3, .str "x"]

/-- A game record carrying `nonDictPool` as its flat broadcast list. -/
def nonDictPoolGame : JVal := .obj [("broadcasts", .arr nonDictPool)]

/-- A game record with the same non-empty name once flagged national and once
not. -/
def crossBucketGame : JVal :=
  .obj [("broadcasts", .arr [
    .obj [("name", .str "KMOV"), ("isNational", .bool true)],
    .obj [("name", .str "KMOV"), ("type", .str "TV")]])]

/-- The standings response of the C9 scenario. -/
def c9Response : JVal :=
  .obj [("records", .arr [
    .obj [("division", .obj [("nameShort", .str "NL Central")]),
          ("teamRecords", .arr [
            .obj [("team", .obj [("id", .num 138)]),
                  ("leagueRecord", .obj [("wins", .num 10), ("losses", .num 5)]),
                  ("divisionRank", .str "1"),
                  ("gamesBack", .str "-")]])]])]

/-! ## Properties of the sorting relation -/

lemma lexLe_cons_iff (x y : Char) (xs ys : List Char) :
    lexLe (x :: xs) (y :: ys) = true ↔
      x.toNat < y.toNat ∨ (x.toNat = y.toNat ∧ lexLe xs ys = true) := by
  show (if x.toNat < y.toNat then true
        else if y.toNat < x.toNat then false else lexLe xs ys) = true ↔ _
  split_ifs with h1 h2
  · simp [h1]
  · constructor
    · intro h; exact h.elim
    · rintro (h | ⟨h, _⟩) <;> omega
  · have hxy : x.toNat = y.toNat := by omega
    constructor
    · intro h; exact Or.inr ⟨hxy, h⟩
    · rintro (h | ⟨_, h⟩)
      · omega
      · exact h

lemma lexLe_total (a : List Char) : ∀ b, lexLe a b = true ∨ lexLe b a = true := by
  induction a with
  | nil => intro b; exact Or.inl rfl
  | cons x xs ih =>
    intro b
    cases b with
    | nil => exact Or.inr rfl
    | cons y ys =>
      rcases Nat.lt_trichotomy x.toNat y.toNat with h | h | h
      · exact Or.inl ((lexLe_cons_iff x y xs ys).2 (Or.inl h))
      · rcases ih ys with h2 | h2
        · exact Or.inl ((lexLe_cons_iff x y xs ys).2 (Or.inr ⟨h, h2⟩))
        · exact Or.inr ((lexLe_cons_iff y x ys xs).2 (Or.inr ⟨h.symm, h2⟩))
      · exact Or.inr ((lexLe_cons_iff y x ys xs).2 (Or.inl h))

lemma lexLe_trans (a : List Char) :
    ∀ b c, lexLe a b = true → lexLe b c = true → lexLe a c = true := by
  induction a with
  | nil => intro b c _ _; rfl
  | cons x xs ih =>
    intro b c h1 h2
    cases b with
    | nil => exact Bool.noConfusion h1
    | cons y ys =>
      cases c with
      | nil => exact Bool.noConfusion h2
      | cons z zs =>
        rw [lexLe_cons_iff] at h1 h2 ⊢
        rcases h1 with hxy | ⟨hxy, hxs⟩
        · rcases h2 with hyz | ⟨hyz, _⟩
          · exact Or.inl (by omega)
          · exact Or.inl (by omega)
        · rcases h2 with hyz | ⟨hyz, hys⟩
          · exact Or.inl (by omega)
          · exact Or.inr ⟨by omega, ih ys zs hxs hys⟩

lemma lexLe_antisymm (a : List Char) :
    ∀ b, lexLe a b = true → lexLe b a = true → a = b := by
  induction a with
  | nil =>
    intro b _ h2
    cases b with
    | nil => rfl
    | cons y ys => exact Bool.noConfusion h2
  | cons x xs ih =>
    intro b h1 h2
    cases b with
    | nil => exact Bool.noConfusion h1
    | cons y ys =>
      rw [lexLe_cons_iff] at h1 h2
      rcases h1 with hxy | ⟨hxy, hxs⟩
      · rcases h2 with hyx | ⟨hyx, _⟩ <;> omega
      · rcases h2 with hyx | ⟨hyx, hys⟩
        · omega
        · have hc : x = y := by
            have hofn : Char.ofNat x.toNat = Char.ofNat y.toNat := by rw [hxy]
            rwa [Char.ofNat_toNat, Char.ofNat_toNat] at hofn
          rw [hc, ih ys hxs hys]

instance : IsTotal String strLe := ⟨fun a b => lexLe_total a.toList b.toList⟩

instance : IsTrans String strLe :=
  ⟨fun a b c h1 h2 => lexLe_trans a.toList b.toList c.toList h1 h2⟩

instance : IsAntisymm String strLe :=
  ⟨fun a b h1 h2 => congrArg String.mk (lexLe_antisymm a.toList b.toList h1 h2)⟩

lemma pySorted_perm (l : List String) : (pySorted l).Perm l :=
  List.perm_insertionSort strLe l

lemma pySorted_sorted (l : List String) : List.Sorted strLe (pySorted l) :=
  List.sorted_insertionSort strLe l

lemma pySorted_congr {l₁ l₂ : List String} (h : l₁.Perm l₂) : pySorted l₁ = pySorted l₂ :=
  List.eq_of_perm_of_sorted
    ((pySorted_perm l₁).trans (h.trans (pySorted_perm l₂).symm))
    (pySorted_sorted l₁) (pySorted_sorted l₂)

lemma pySorted_length (l : List String) : (pySorted l).length = l.length :=
  (pySorted_perm l).length_eq

lemma pySorted_eq_nil_iff (l : List String) : pySorted l = [] ↔ l = [] := by
  constructor
  · intro h
    have := pySorted_length l
    rw [h] at this
    exact List.length_eq_zero.1 this.symm
  · intro h; rw [h]; rfl

/-! ## Properties of the bucketing loop -/

lemma mem_setAdd {s : List String} {x y : String} : x ∈ setAdd s y ↔ x = y ∨ x ∈ s := by
  unfold setAdd
  split_ifs with h
  · constructor
    · exact Or.inr
    · rintro (rfl | hx)
      · exact h
      · exact hx
  · exact List.mem_cons

lemma nodup_setAdd {s : List String} (h : s.Nodup) (y : String) : (setAdd s y).Nodup := by
  unfold setAdd
  split_ifs with hy
  · exact h
  · exact List.nodup_cons.2 ⟨hy, h⟩

lemma foldl_bucketStep_fst_mem (items : List JVal) :
    ∀ (acc : List String × List String) (x : String),
      x ∈ (items.foldl bucketStep acc).1 ↔
        x ∈ acc.1 ∨ ∃ b ∈ items, classifyBroadcast b = some (Bucket.national, x) := by
  induction items with
  | nil => intro acc x; simp
  | cons b items ih =>
    intro acc x
    rw [List.foldl_cons, ih]
    rcases hcb : classifyBroadcast b with _ | ⟨bk, s⟩
    · simp [bucketStep, hcb]
    · cases bk with
      | national => simp [bucketStep, hcb, mem_setAdd]; tauto
      | regional => simp [bucketStep, hcb]

lemma foldl_bucketStep_snd_mem (items : List JVal) :
    ∀ (acc : List String × List String) (x : String),
      x ∈ (items.foldl bucketStep acc).2 ↔
        x ∈ acc.2 ∨ ∃ b ∈ items, classifyBroadcast b = some (Bucket.regional, x) := by
  induction items with
  | nil => intro acc x; simp
  | cons b items ih =>
    intro acc x
    rw [List.foldl_cons, ih]
    rcases hcb : classifyBroadcast b with _ | ⟨bk, s⟩
    · simp [bucketStep, hcb]
    · cases bk with
      | national => simp [bucketStep, hcb]
      | regional => simp [bucketStep, hcb, mem_setAdd]; tauto

lemma foldl_bucketStep_fst_nodup (items : List JVal) :
    ∀ (acc : List String × List String), acc.1.Nodup → (items.foldl bucketStep acc).1.Nodup := by
  induction items with
  | nil => intro acc h; exact h
  | cons b items ih =>
    intro acc h
    rw [List.foldl_cons]
    apply ih
    rcases hcb : classifyBroadcast b with _ | ⟨bk, s⟩
    · simpa [bucketStep, hcb] using h
    · cases bk with
      | national => simpa [bucketStep, hcb] using nodup_setAdd h s
      | regional => simpa [bucketStep, hcb] using h

lemma foldl_bucketStep_snd_nodup (items : List JVal) :
    ∀ (acc : List String × List String), acc.2.Nodup → (items.foldl bucketStep acc).2.Nodup := by
  induction items with
  | nil => intro acc h; exact h
  | cons b items ih =>
    intro acc h
    rw [List.foldl_cons]
    apply ih
    rcases hcb : classifyBroadcast b with _ | ⟨bk, s⟩
    · simpa [bucketStep, hcb] using h
    · cases bk with
      | national => simpa [bucketStep, hcb] using h
      | regional => simpa [bucketStep, hcb] using nodup_setAdd h s

lemma bucketize_fst_mem (items : List JVal) (x : String) :
    x ∈ (bucketize items).1 ↔ ∃ b ∈ items, classifyBroadcast b = some (Bucket.national, x) := by
  unfold bucketize
  rw [foldl_bucketStep_fst_mem]
  simp

lemma bucketize_snd_mem (items : List JVal) (x : String) :
    x ∈ (bucketize items).2 ↔ ∃ b ∈ items, classifyBroadcast b = some (Bucket.regional, x) := by
  unfold bucketize
  rw [foldl_bucketStep_snd_mem]
  simp

lemma bucketize_fst_nodup (items : List JVal) : (bucketize items).1.Nodup :=
  foldl_bucketStep_fst_nodup items ([], []) List.nodup_nil

lemma bucketize_snd_nodup (items : List JVal) : (bucketize items).2.Nodup :=
  foldl_bucketStep_snd_nodup items ([], []) List.nodup_nil

lemma bucketize_empty_iff (items : List JVal) :
    (bucketize items).1 = [] ∧ (bucketize items).2 = [] ↔
      ∀ b ∈ items, classifyBroadcast b = none := by
  constructor
  · rintro ⟨h1, h2⟩ b hb
    rcases hcb : classifyBroadcast b with _ | ⟨bk, s⟩
    · rfl
    · cases bk with
      | national =>
        have : s ∈ (bucketize items).1 := (bucketize_fst_mem items s).2 ⟨b, hb, hcb⟩
        rw [h1] at this
        exact absurd this (List.not_mem_nil s)
      | regional =>
        have : s ∈ (bucketize items).2 := (bucketize_snd_mem items s).2 ⟨b, hb, hcb⟩
        rw [h2] at this
        exact absurd this (List.not_mem_nil s)
  · intro h
    constructor
    · apply List.eq_nil_iff_forall_not_mem.2
      intro x hx
      rcases (bucketize_fst_mem items x).1 hx with ⟨b, hb, hcb⟩
      rw [h b hb] at hcb
      exact Option.noConfusion hcb
    · apply List.eq_nil_iff_forall_not_mem.2
      intro x hx
      rcases (bucketize_snd_mem items x).1 hx with ⟨b, hb, hcb⟩
      rw [h b hb] at hcb
      exact Option.noConfusion hcb

lemma bucketize_fst_perm {p1 p2 : List JVal} (hp : p1.Perm p2) :
    (bucketize p1).1.Perm (bucketize p2).1 := by
  rw [List.perm_ext_iff_of_nodup (bucketize_fst_nodup p1) (bucketize_fst_nodup p2)]
  intro x
  rw [bucketize_fst_mem, bucketize_fst_mem]
  constructor
  · rintro ⟨b, hb, hcb⟩; exact ⟨b, hp.mem_iff.1 hb, hcb⟩
  · rintro ⟨b, hb, hcb⟩; exact ⟨b, hp.mem_iff.2 hb, hcb⟩

lemma bucketize_snd_perm {p1 p2 : List JVal} (hp : p1.Perm p2) :
    (bucketize p1).2.Perm (bucketize p2).2 := by
  rw [List.perm_ext_iff_of_nodup (bucketize_snd_nodup p1) (bucketize_snd_nodup p2)]
  intro x
  rw [bucketize_snd_mem, bucketize_snd_mem]
  constructor
  · rintro ⟨b, hb, hcb⟩; exact ⟨b, hp.mem_iff.1 hb, hcb⟩
  · rintro ⟨b, hb, hcb⟩; exact ⟨b, hp.mem_iff.2 hb, hcb⟩

/-! ## Properties of the display assembly -/

lemma pySorted_nil : pySorted [] = ([] : List String) := rfl

lemma assembleDisplay_nil_nil : assembleDisplay [] [] = [] := rfl

lemma assembleDisplay_nil_left {r : List String} (hr : r ≠ []) :
    assembleDisplay [] r = (pySorted r).take 3 := by
  unfold assembleDisplay
  dsimp only
  rw [if_pos hr]
  norm_num
  rfl

lemma assembleDisplay_nil_right {n : List String} (hn : n ≠ []) :
    assembleDisplay n [] = pySorted n := by
  unfold assembleDisplay
  dsimp only
  rw [if_neg (by simp), if_pos hn]

lemma assembleDisplay_pos {n r : List String} (hn : n ≠ []) (hr : r ≠ []) :
    assembleDisplay n r =
      pySorted n ++ (pySorted r).take ((max 0 (3 - (n.length : Int))).toNat) := by
  unfold assembleDisplay
  dsimp only
  rw [if_pos hr, if_pos hn, pySorted_length]
  by_cases h : (0 : Int) < max 0 (3 - (n.length : Int))
  · rw [if_pos h]
  · rw [if_neg h]
    have h0 : (max 0 (3 - (n.length : Int))).toNat = 0 := by omega
    rw [h0, List.take_zero, List.append_nil]

lemma assembleDisplay_length_le (n r : List String) :
    (assembleDisplay n r).length ≤ max 3 n.length := by
  by_cases hn : n = []
  · subst hn
    by_cases hr : r = []
    · subst hr; simp [assembleDisplay_nil_nil]
    · rw [assembleDisplay_nil_left hr, List.length_take]
      omega
  · by_cases hr : r = []
    · subst hr
      rw [assembleDisplay_nil_right hn, pySorted_length]
      omega
    · rw [assembleDisplay_pos hn hr, List.length_append, List.length_take,
        pySorted_length, pySorted_length]
      omega

lemma assembleDisplay_eq_nil_iff (n r : List String) :
    assembleDisplay n r = [] ↔ n = [] ∧ r = [] := by
  by_cases hn : n = []
  · subst hn
    by_cases hr : r = []
    · subst hr; simp [assembleDisplay_nil_nil]
    · rw [assembleDisplay_nil_left hr]
      simp only [true_and]
      constructor
      · intro h
        have hl := congrArg List.length h
        rw [List.length_take, pySorted_length] at hl
        simp only [List.length_nil] at hl
        exact absurd (List.length_eq_zero.1 (by omega)) hr
      · intro h; exact absurd h hr
  · by_cases hr : r = []
    · subst hr
      rw [assembleDisplay_nil_right hn]
      simp [pySorted_eq_nil_iff, hn]
    · rw [assembleDisplay_pos hn hr]
      simp only [List.append_eq_nil]
      constructor
      · rintro ⟨h1, _⟩
        exact absurd ((pySorted_eq_nil_iff n).1 h1) hn
      · rintro ⟨h1, _⟩
        exact absurd h1 hn

lemma assembleDisplay_congr {n n' r r' : List String} (hn : n.Perm n') (hr : r.Perm r') :
    assembleDisplay n r = assembleDisplay n' r' := by
  have hsn : pySorted n = pySorted n' := pySorted_congr hn
  have hsr : pySorted r = pySorted r' := pySorted_congr hr
  have hln : n.length = n'.length := hn.length_eq
  by_cases h1 : n = []
  · have h1' : n' = [] := ((h1 ▸ hn : ([] : List String).Perm n').symm).eq_nil
    subst h1; subst h1'
    by_cases h2 : r = []
    · have h2' : r' = [] := ((h2 ▸ hr : ([] : List String).Perm r').symm).eq_nil
      subst h2; subst h2'; rfl
    · have h2' : r' ≠ [] := fun hc => h2 ((hc ▸ hr.symm : ([] : List String).Perm r).symm).eq_nil
      rw [assembleDisplay_nil_left h2, assembleDisplay_nil_left h2', hsr]
  · have h1' : n' ≠ [] := fun hc => h1 ((hc ▸ hn.symm : ([] : List String).Perm n).symm).eq_nil
    by_cases h2 : r = []
    · have h2' : r' = [] := ((h2 ▸ hr : ([] : List String).Perm r').symm).eq_nil
      subst h2; subst h2'
      rw [assembleDisplay_nil_right h1, assembleDisplay_nil_right h1', hsn]
    · have h2' : r' ≠ [] := fun hc => h2 ((hc ▸ hr.symm : ([] : List String).Perm r).symm).eq_nil
      rw [assembleDisplay_pos h1 h2, assembleDisplay_pos h1' h2', hsn, hsr, hln]

lemma assembleDisplay_of_three_le {n : List String} (r : List String) (h3 : 3 ≤ n.length) :
    assembleDisplay n r = pySorted n := by
  have hn : n ≠ [] := by
    intro h
    rw [h] at h3
    simp at h3
  by_cases hr : r = []
  · subst hr; exact assembleDisplay_nil_right hn
  · rw [assembleDisplay_pos hn hr]
    have h0 : (max 0 (3 - (n.length : Int))).toNat = 0 := by omega
    rw [h0, List.take_zero, List.append_nil]

/-- Behaviour of the normalizer once the candidate pool is known: the raising
branches are exhausted by `collectPool`, and the rest of the body is the
bucket/assemble pipeline with the two sentinel checks. -/
lemma gsb_of_collectPool {game : JVal} {pool : List JVal} (h : collectPool game = .ok pool) :
    get_simplified_broadcasts game =
      (if pool.isEmpty then .ok ["TBD"]
       else if (assembleDisplay (bucketize pool).1 (bucketize pool).2).isEmpty then .ok ["TBD"]
       else .ok (assembleDisplay (bucketize pool).1 (bucketize pool).2)) := by
  unfold get_simplified_broadcasts
  rw [h]

/-! ## Claim theorems -/

/-- Claim C1 fails as stated: four distinct flagged-national candidates give a
four-entry result, because the national bucket is appended whole and only the
regional contribution is capped. -/
theorem C1_counterexample :
    get_simplified_broadcasts fourNationalGame = .ok ["ESPN", "FOX", "FS1", "TBS"] ∧
      ¬ (["ESPN", "FOX", "FS1", "TBS"] : List String).length ≤ 3 :=
  ⟨rfl, by decide⟩

/-- Claim C1, amended: for every input whose pool extraction succeeds, the
returned list has length at most `max 3 |national bucket|` (the cap of 3 only
binds the regional contribution), and the result is exactly `["TBD"]` iff no
candidate contributes a label to either bucket (in particular when the pool
is empty or every candidate is filtered out as radio or as the
direct-streaming brand — but also when, e.g., candidates are not dicts or
resolve to empty names), or the assembled display list is itself exactly the
single label `"TBD"`. -/
theorem C1_cap_and_sentinel (game : JVal) (pool : List JVal)
    (h : collectPool game = .ok pool) :
    ∃ out, get_simplified_broadcasts game = .ok out ∧
      out.length ≤ max 3 (bucketize pool).1.length ∧
      (out = ["TBD"] ↔ (∀ b ∈ pool, classifyBroadcast b = none) ∨
        assembleDisplay (bucketize pool).1 (bucketize pool).2 = ["TBD"]) := by
  rw [gsb_of_collectPool h]
  by_cases hp : pool.isEmpty
  · rw [if_pos hp]
    refine ⟨["TBD"], rfl, by simp, ?_⟩
    have hnil : pool = [] := by simpa using hp
    constructor
    · intro _
      left
      intro b hb
      rw [hnil] at hb
      exact absurd hb (List.not_mem_nil b)
    · intro _; rfl
  · rw [if_neg hp]
    by_cases hd : (assembleDisplay (bucketize pool).1 (bucketize pool).2).isEmpty
    · rw [if_pos hd]
      refine ⟨["TBD"], rfl, by simp, ?_⟩
      have hdn : assembleDisplay (bucketize pool).1 (bucketize pool).2 = [] := by simpa using hd
      have hbo := (assembleDisplay_eq_nil_iff _ _).1 hdn
      constructor
      · intro _
        left
        exact (bucketize_empty_iff pool).1 hbo
      · intro _; rfl
    · rw [if_neg hd]
      have hdn : assembleDisplay (bucketize pool).1 (bucketize pool).2 ≠ [] := by simpa using hd
      refine ⟨_, rfl, assembleDisplay_length_le _ _, ?_⟩
      constructor
      · intro h1
        right
        exact h1
      · rintro (h1 | h1)
        · have hbo := (bucketize_empty_iff pool).2 h1
          exact absurd ((assembleDisplay_eq_nil_iff _ _).2 hbo) hdn
        · exact h1

/-- Witness for the amended C1 at the empty game record. -/
theorem C1_cap_and_sentinel_witness :
    ∃ out, get_simplified_broadcasts (JVal.obj []) = .ok out ∧
      out.length ≤ max 3 (bucketize []).1.length ∧
      (out = ["TBD"] ↔ (∀ b ∈ ([] : List JVal), classifyBroadcast b = none) ∨
        assembleDisplay (bucketize []).1 (bucketize []).2 = ["TBD"]) :=
  C1_cap_and_sentinel (JVal.obj []) [] rfl

/-- Claim C2 fails as stated: with four members in the national bucket the
result is all four of them, not three. -/
theorem C2_counterexample :
    3 ≤ (bucketize c2Pool).1.length ∧
      get_simplified_broadcasts c2Game = .ok ["Alpha TV", "Beta TV", "Delta TV", "Gamma TV"] ∧
      (["Alpha TV", "Beta TV", "Delta TV", "Gamma TV"] : List String).length ≠ 3 :=
  ⟨by decide, rfl, by decide⟩

/-- Claim C2, amended: when the national bucket ends up with at least 3
members, the result is exactly the whole national bucket sorted
lexicographically — all of its members, however many — and contains no
regional-bucket members; the members are exactly the national labels the pool
produces. -/
theorem C2_national_priority (game : JVal) (pool : List JVal)
    (h : collectPool game = .ok pool) (h3 : 3 ≤ (bucketize pool).1.length) :
    get_simplified_broadcasts game = .ok (pySorted (bucketize pool).1) ∧
      ∀ x, x ∈ pySorted (bucketize pool).1 ↔
        ∃ b ∈ pool, classifyBroadcast b = some (Bucket.national, x) := by
  have hne : (bucketize pool).1 ≠ [] := by
    intro hc
    rw [hc] at h3
    simp at h3
  have hpool : ¬ pool.isEmpty := by
    intro hp
    have hnil : pool = [] := by simpa using hp
    rw [hnil] at h3
    simp [bucketize] at h3
  have hda := assembleDisplay_of_three_le (bucketize pool).2 h3
  constructor
  · rw [gsb_of_collectPool h, if_neg hpool, hda]
    rw [if_neg (by simpa using fun hc => hne ((pySorted_eq_nil_iff _).1 hc))]
  · intro x
    rw [(pySorted_perm _).mem_iff]
    exact bucketize_fst_mem pool x

/-- Witness for the amended C2 at a pool of three national candidates. -/
theorem C2_national_priority_witness :
    get_simplified_broadcasts threeNationalGame = .ok (pySorted (bucketize threeNationalPool).1) ∧
      ∀ x, x ∈ pySorted (bucketize threeNationalPool).1 ↔
        ∃ b ∈ threeNationalPool, classifyBroadcast b = some (Bucket.national, x) :=
  C2_national_priority threeNationalGame threeNationalPool rfl (by decide)

/-- Claim C3: on the scenario record the normalizer returns exactly
`["FOX", "BSMW"]` — the national candidate under its name, the regional one
under its call sign (non-empty, not contained in the display name, length
strictly between 2 and 7), the AM radio candidate dropped. -/
theorem C3_scenario :
    get_simplified_broadcasts c3Game = .ok ["FOX", "BSMW"] ∧
      classifyBroadcast (.obj [("type", .str "TV"), ("name", .str "FOX"),
        ("isNational", .bool true)]) = some (Bucket.national, "FOX") ∧
      classifyBroadcast (.obj [("type", .str "TV"), ("name", .str "Bally Sports Midwest"),
        ("callSign", .str "BSMW")]) = some (Bucket.regional, "BSMW") ∧
      classifyBroadcast (.obj [("type", .str "AM"), ("name", .str "KMOX")]) = none ∧
      "BSMW" ≠ "" ∧ substr "BSMW" "Bally Sports Midwest" = false ∧
      2 < pyLen "BSMW" ∧ pyLen "BSMW" < 7 :=
  ⟨rfl, rfl, rfl, rfl, by decide, by decide, by decide, by decide⟩

/-- Claim C4: the FanDuel shortening — "FanDuel Sports Network" becomes
"FanDuel SN" and "FanDuel Sports Network Midwest" becomes "FanDuel Midwest",
routed to the national bucket exactly when `isNational` is set, and a call
sign that the generic regional rule would otherwise prefer is ignored (no
fall-through). -/
theorem C4_fanduel_shortening :
    classifyBroadcast (.obj [("name", .str "FanDuel Sports Network"),
        ("isNational", .bool true)]) = some (Bucket.national, "FanDuel SN") ∧
      classifyBroadcast (.obj [("name", .str "FanDuel Sports Network")]) =
        some (Bucket.regional, "FanDuel SN") ∧
      classifyBroadcast (.obj [("name", .str "FanDuel Sports Network Midwest"),
        ("isNational", .bool true)]) = some (Bucket.national, "FanDuel Midwest") ∧
      classifyBroadcast (.obj [("name", .str "FanDuel Sports Network Midwest")]) =
        some (Bucket.regional, "FanDuel Midwest") ∧
      classifyBroadcast (.obj [("name", .str "FanDuel Sports Network Midwest"),
        ("callSign", .str "FDMW")]) = some (Bucket.regional, "FanDuel Midwest") :=
  ⟨rfl, rfl, rfl, rfl, rfl⟩

/-- Claim C5: the normalizer is invariant under permutation of the candidate
pool — two game records whose extracted pools are permutations of each other
(in particular, reorderings across the flat `broadcasts` list and the
program-guide items) produce identical results. -/
theorem C5_perm_invariant (g1 g2 : JVal) (p1 p2 : List JVal)
    (h1 : collectPool g1 = .ok p1) (h2 : collectPool g2 = .ok p2) (hp : p1.Perm p2) :
    get_simplified_broadcasts g1 = get_simplified_broadcasts g2 := by
  rw [gsb_of_collectPool h1, gsb_of_collectPool h2]
  have hdisp := assembleDisplay_congr (bucketize_fst_perm hp) (bucketize_snd_perm hp)
  rcases p1 with _ | ⟨a, as⟩
  · rw [hp.symm.eq_nil]
  · rcases p2 with _ | ⟨b, bs⟩
    · exact absurd hp.eq_nil (List.cons_ne_nil a as)
    · simp only [List.isEmpty_cons, Bool.false_eq_true, if_false]
      rw [hdisp]

/-- Witness for C5: swapping the two broadcast entries leaves the result
unchanged. -/
theorem C5_perm_invariant_witness :
    get_simplified_broadcasts permGameA = get_simplified_broadcasts permGameB :=
  C5_perm_invariant permGameA permGameB [bcFox, bcBally] [bcBally, bcFox] rfl rfl
    (List.Perm.swap bcBally bcFox [])

/-- Claim C6 fails as stated: a game record whose `content` field is a number
makes the membership test `"media" in game["content"]` raise `TypeError`, so
the function does not tolerate every malformed input. -/
theorem C6_counterexample :
    get_simplified_broadcasts (.obj [("content", .num 5)]) =
      .error "TypeError: argument is not iterable" := rfl

/-- Claim C6, amended: the function never raises provided the pool extraction
itself succeeds (the `broadcasts` / `content` / `media` / `epg` chain is
shaped as expected where present); within the pool, non-dict candidates and
candidates with non-string or absent fields are skipped or treated as empty
rather than raising — in particular every non-dict candidate contributes
nothing. -/
theorem C6_no_raise_when_pool_ok (game : JVal) (pool : List JVal)
    (h : collectPool game = .ok pool) :
    (∃ out, get_simplified_broadcasts game = .ok out) ∧
      ∀ b ∈ pool, JVal.isDict b = false → classifyBroadcast b = none := by
  constructor
  · rw [gsb_of_collectPool h]
    by_cases hp : pool.isEmpty
    · rw [if_pos hp]; exact ⟨_, rfl⟩
    · rw [if_neg hp]
      by_cases hd : (assembleDisplay (bucketize pool).1 (bucketize pool).2).isEmpty
      · rw [if_pos hd]; exact ⟨_, rfl⟩
      · rw [if_neg hd]; exact ⟨_, rfl⟩
  · intro b _ hnd
    cases b with
    | obj fs => exact Bool.noConfusion hnd
    | null => rfl
    | bool x => rfl
    | num n => rfl
    | str s => rfl
    | arr xs => rfl

/-- Witness for the amended C6 at a pool of non-dict candidates. -/
theorem C6_no_raise_witness :
    (∃ out, get_simplified_broadcasts nonDictPoolGame = .ok out) ∧
      ∀ b ∈ nonDictPool, JVal.isDict b = false → classifyBroadcast b = none :=
  C6_no_raise_when_pool_ok nonDictPoolGame nonDictPool rfl

/-- Claim C7: the timestamp with a `Z` suffix converts to Central time in the
12-hour clock with the zone abbreviation; a bare date renders with the
`(Time TBD)` suffix and no conversion; any non-string input yields the
sentinel. -/
theorem C7_time_formatting :
    format_game_time (.str "2024-05-20T23:10:00Z") "America/Chicago" =
        "Mon May 20, 6:10 PM CDT" ∧
      format_game_time (.str "2024-05-20") "America/Chicago" = "Mon May 20 (Time TBD)" ∧
      ∀ v : JVal, v.isStr = false → format_game_time v "America/Chicago" = "Time TBD" := by
  refine ⟨rfl, rfl, ?_⟩
  intro v hv
  cases v with
  | str s => exact Bool.noConfusion hv
  | null => rfl
  | bool b => rfl
  | num n => rfl
  | arr xs => rfl
  | obj fs => rfl

/-- Witness for C7 at a non-string input. -/
theorem C7_time_formatting_witness :
    format_game_time (.num 0) "America/Chicago" = "Time TBD" :=
  C7_time_formatting.2.2 (.num 0) rfl

/-- Claim C8: the formatter is total — non-strings yield the sentinel, an
unknown timezone yields the sentinel, and when every timestamp pattern fails
the portion before the `T` separator is tried as a bare date, the sentinel
being returned when that also fails. -/
theorem C8_never_raises_fallback (v : JVal) (tzs : String) :
    (v.isStr = false → format_game_time v tzs = "Time TBD") ∧
      (∀ s, v = .str s → tzLookup tzs = none → format_game_time v tzs = "Time TBD") ∧
      (∀ s tz, v = .str s → tzLookup tzs = some tz →
        parseDateTimeSec (stripZ s).toList = none →
        parseDateTimeFrac (stripZ s).toList = none →
        parseBareDate (stripZ s).toList = none →
        format_game_time v tzs =
          (match parseBareDate (datePortion (stripZ s)).toList with
           | some dt => renderBare dt
           | none => "Time TBD")) := by
  refine ⟨?_, ?_, ?_⟩
  · intro hv
    cases v with
    | str s => exact Bool.noConfusion hv
    | null => rfl
    | bool b => rfl
    | num n => rfl
    | arr xs => rfl
    | obj fs => rfl
  · rintro s rfl hz
    unfold format_game_time
    rw [hz]
  · rintro s tz rfl hz h1 h2 h3
    unfold format_game_time
    rw [hz]
    dsimp only
    rw [h1, h2, h3]

/-- Witness for C8 at an unparseable string in the display timezone. -/
theorem C8_never_raises_witness :
    format_game_time (.str "nonsense") "America/Chicago" = "Time TBD" :=
  (C8_never_raises_fallback (.str "nonsense") "America/Chicago").2.2 "nonsense"
    TZRule.chicago rfl rfl rfl rfl rfl

/-- Claim C9: on the scenario standings response the extraction produces the
record "10-5", the rank "1 in NL Central", and — the games-back literal `-`
having been normalized to `0.0` — the games-back display "0.0 GB". -/
theorem C9_standings_scenario :
    extract_standings c9Response 138 =
      ⟨"10-5", "1 in NL Central", "0.0 GB"⟩ := rfl

/-- Claim C10: deduplication is only per bucket — the same non-empty name,
once flagged national and once not, appears twice in the result. -/
theorem C10_cross_bucket_duplicate :
    get_simplified_broadcasts crossBucketGame = .ok ["KMOV", "KMOV"] ∧
      classifyBroadcast (.obj [("name", .str "KMOV"), ("isNational", .bool true)]) =
        some (Bucket.national, "KMOV") ∧
      classifyBroadcast (.obj [("name", .str "KMOV"), ("type", .str "TV")]) =
        some (Bucket.regional, "KMOV") :=
  ⟨rfl, rfl, rfl⟩
